import Mathlib

/-!
Shallow embedding of the chunking / deduplication / retrieval core of the
`ai-contract-review` repository (file `src/services/pinecone_rag_service.py`,
class `PineconeRAGService`), together with theorems settling the claims
about it.

Modelling conventions:
* Python JSON-ish dictionaries are association lists `List (String × Value)`
  with insertion order preserved; `dict.get(k, d)` is `(dictGet d k).getD d`.
* The tiktoken tokenizer is an abstract pair of functions `encode`/`decode`
  (it is an external library, not part of the repository).
* `hashlib.sha256(content).hexdigest()` is modelled by the content string
  itself: the model keeps the hash's determinism (identical content gives an
  identical key), which is the only property the code relies on.
* Floating point similarity scores are modelled as rationals `ℚ`; the code
  only compares them with `>`.
* External services (OpenAI embeddings/chat, the Pinecone index) are oracles
  in an `Env` structure; calls that can raise return `Except String`.
* `numpy` arrays are plain lists; `np.array` of a list of vectors is the
  identity in this model.
-/

/-- A JSON-like Python value, as produced by `json.loads` and stored in the
result dictionaries and vector metadata. -/
inductive Value where
  | null : Value
  | bool : Bool → Value
  | int : Int → Value
  | rat : ℚ → Value
  | str : String → Value
  | list : List Value → Value
  | dict : List (String × Value) → Value
deriving BEq

/-- Ordered dictionary lookup, modelling Python `d[k]` / `d.get(k)` on the
dict literals the service builds (keys are unique in all of them). -/
def dictGet : List (String × Value) → String → Option Value
  | [], _ => none
  | (k, v) :: rest, key => if k == key then some v else dictGet rest key

/-- Python truthiness (`if x:`) for the modelled values. -/
def isTruthy : Value → Bool
  | .null => false
  | .bool b => b
  | .int n => n != 0
  | .rat q => q != 0
  | .str s => s != ""
  | .list l => !l.isEmpty
  | .dict d => !d.isEmpty

/-- Approximation of Python `str(value)` used only inside citation strings
(`f"[Source: {doc_id}, {chunk_id}]"`); the genuine values there are strings.
Container reprs are abbreviated, which no claim inspects. -/
def pyStr : Value → String
  | .null => "None"
  | .bool true => "True"
  | .bool false => "False"
  | .int n => toString n
  | .rat q => toString q
  | .str s => s
  | .list _ => "[...]"
  | .dict _ => "\x7b...\x7d"

/-- Character-list test that `small` occurs at the head of `big`
(Python slicing helper for substring search). -/
def leadsWith : List Char → List Char → Bool
  | [], _ => true
  | _ :: _, [] => false
  | a :: as, b :: bs => a == b && leadsWith as bs

/-- Python `sub in s` substring containment over character lists. -/
def subOccurs : List Char → List Char → Bool
  | [], sub => sub.isEmpty
  | h :: t, sub => leadsWith sub (h :: t) || subOccurs t sub

/-- Python `str.strip()` on a character list. -/
def stripChars (cs : List Char) : List Char :=
  ((cs.dropWhile Char.isWhitespace).reverse.dropWhile Char.isWhitespace).reverse

/-- Model of Python `query.lower().strip()` as a character list. -/
def lowerStripChars (s : String) : List Char :=
  stripChars (s.toList.map Char.toLower)

/-- Python `str.strip()` on a string (used by `_generate_chunk_hash`). -/
def pyStrip (s : String) : String :=
  String.mk (stripChars s.toList)

/-- Python `x or default` for optional string arguments: `None` and the empty
string both fall back to the default. -/
def pyOrStr (o : Option String) (dflt : String) : String :=
  match o with
  | none => dflt
  | some s => if s == "" then dflt else s

/-- The tiktoken `cl100k_base` tokenizer, abstracted: the repository treats it
as an opaque external encoder/decoder pair. -/
structure Tokenizer where
  encode : String → List Nat
  decode : List Nat → String

/-- Configuration constant `self.chunk_size = 800` (tokens per chunk). -/
def chunk_size : Nat := 800

/-- Configuration constant `self.overlap = 100` (token overlap). -/
def overlap : Nat := 100

/-- Model of `_generate_chunk_hash`: the source computes
`sha256(f"{filename}:{text.strip()}").hexdigest()`; the model keeps the
pre-hash content string itself as the deterministic key. -/
def generate_chunk_hash (text filename : String) : String :=
  filename ++ ":" ++ pyStrip text

/-- Model of `_generate_doc_id`: the source computes
`"doc_" + sha256(f"{filename}:{upload_time}").hexdigest()[:12]`; the model
keeps the pre-hash content string as the deterministic identifier body. -/
def generate_doc_id (filename upload_time : String) : String :=
  "doc_" ++ (filename ++ ":" ++ upload_time)

/-- A chunk record as built by `_chunk_document` (one Python dict per chunk,
with the same fields). -/
structure Chunk where
  text : String
  filename : String
  chunk_index : Nat
  token_count : Nat
  start_token : Nat
  end_token : Nat
  chunk_hash : String

/-- Number of iterations of `range(0, n, chunk_size - overlap)`:
`⌈n / (chunk_size - overlap)⌉`. -/
def numChunks (n : Nat) : Nat :=
  (n + (chunk_size - overlap) - 1) / (chunk_size - overlap)

/-- The window start offsets produced by
`range(0, len(tokens), self.chunk_size - self.overlap)`. -/
def chunkStarts (n : Nat) : List Nat :=
  (List.range (numChunks n)).map (· * (chunk_size - overlap))

/-- One loop body of `_chunk_document`: build the chunk dict for window start
`i`, where `idx` is `len(chunks)` at append time (the running index). -/
def makeChunk (tok : Tokenizer) (tokens : List Nat) (filename : String)
    (idx i : Nat) : Chunk :=
  let chunk_end := min (i + chunk_size) tokens.length
  let chunk_tokens := (tokens.drop i).take (chunk_end - i)
  let chunk_text := tok.decode chunk_tokens
  { text := chunk_text
    filename := filename
    chunk_index := idx
    token_count := chunk_tokens.length
    start_token := i
    end_token := chunk_end
    chunk_hash := generate_chunk_hash chunk_text filename }

/-- Model of `_chunk_document`: encode the text, then slide a `chunk_size`
token window advancing by `chunk_size - overlap` tokens. -/
def chunk_document (tok : Tokenizer) (text filename : String) : List Chunk :=
  let tokens := tok.encode text
  (chunkStarts tokens.length).enum.map (fun p => makeChunk tok tokens filename p.1 p.2)

/-- A record persisted in the Pinecone index (`id` / `values` / `metadata`, as
in the `vectors.append({...})` of `upload_contract`). -/
structure VectorRecord where
  id : String
  values : List ℚ
  metadata : List (String × Value)

/-- The Pinecone index contents: the list of stored records. -/
abbrev Store := List VectorRecord

/-- One match returned by `index.query` (id, similarity score, metadata). -/
structure QueryMatch where
  id : String
  score : ℚ
  metadata : List (String × Value)

/-- Outcome of one chat-completion call as seen by the service: a parsed
`analysis_data` dict, a `json.JSONDecodeError` from `json.loads`, or any
other exception (API failure / empty content). -/
inductive LLMOutcome where
  | ok : List (String × Value) → LLMOutcome
  | parseErr : String → LLMOutcome
  | fail : String → LLMOutcome

/-- The external world of the service: tokenizer, index availability
(`self.index` being non-None), the embedding API, the index query endpoint
(given the store, a vector and `top_k`), whether `index.fetch` raises for a
given id, the `datetime.now().isoformat()` reading, and the two
chat-completion oracles (main analysis and global-fallback calls). -/
structure Env where
  tok : Tokenizer
  indexAvailable : Bool
  embed : List String → Except String (List (List ℚ))
  queryFn : Store → List ℚ → Nat → Except String (List QueryMatch)
  fetchRaises : Store → String → Bool
  upload_time : String
  llmMain : LLMOutcome
  llmFallback : LLMOutcome

/-- Model of `_get_embeddings`: forwards to the embedding API and rewraps any
exception as `Exception(f"Failed to generate embeddings: {e}")`. -/
def get_embeddings (env : Env) (texts : List String) : Except String (List (List ℚ)) :=
  match env.embed texts with
  | .ok embs => .ok embs
  | .error e => .error ("Failed to generate embeddings: " ++ e)

/-- The per-hash loop of `_check_existing_chunks`: `index.fetch([h])`, append
`h` on a hit, and `except: continue` on a raise. -/
def checkLoop (fetchFn : String → Except String Bool) : List String → List String
  | [] => []
  | h :: rest =>
    match fetchFn h with
    | .ok true => h :: checkLoop fetchFn rest
    | .ok false => checkLoop fetchFn rest
    | .error _ => checkLoop fetchFn rest

/-- Model of `_check_existing_chunks`: point-lookup every hash, collecting the
ones found; individual lookup errors are swallowed (`continue`). -/
def check_existing_chunks (fetchFn : String → Except String Bool)
    (chunk_hashes : List String) : List String :=
  checkLoop fetchFn chunk_hashes

/-- The `index.fetch(ids=[h])` behaviour inside `upload_contract`: it raises
when the oracle says so, and otherwise reports whether a record with that id
is stored. -/
def uploadFetchFn (env : Env) (store : Store) : String → Except String Bool :=
  fun id => if env.fetchRaises store id then .error "fetch failed"
            else .ok (store.any (fun r => r.id == id))

/-- The query loop of `_similarity_deduplication_check`: for embedding `i`,
query the index with `top_k = 3` and record `i` when any returned score
exceeds the threshold; a raise anywhere aborts the whole loop. -/
def simQueryLoop (queryFn : List ℚ → Nat → Except String (List QueryMatch))
    (threshold : ℚ) : List (List ℚ) → Nat → Except String (List Nat)
  | [], _ => .ok []
  | e :: rest, i =>
    match queryFn e 3 with
    | .error msg => .error msg
    | .ok ms =>
      match simQueryLoop queryFn threshold rest (i + 1) with
      | .error msg => .error msg
      | .ok tail => .ok (if ms.any (fun m => m.score > threshold) then i :: tail else tail)

/-- Model of `_similarity_deduplication_check`: returns `[]` when the index is
unavailable, and `[]` on any query exception (the `except` branch). -/
def similarity_deduplication_check (indexAvailable : Bool)
    (queryFn : List ℚ → Nat → Except String (List QueryMatch))
    (new_embeddings : List (List ℚ)) (threshold : ℚ) : List Nat :=
  if !indexAvailable then []
  else
    match simQueryLoop queryFn threshold new_embeddings 0 with
    | .ok l => l
    | .error _ => []

/-- Zero-padded `f"chunk_{n:03d}"`. -/
def pad3 (n : Nat) : String :=
  if n < 10 then "00" ++ toString n
  else if n < 100 then "0" ++ toString n
  else toString n

/-- The `chunk_id` label `f"chunk_{i+1:03d}"`. -/
def chunkIdStr (n : Nat) : String :=
  "chunk_" ++ pad3 n

/-- The enhanced metadata dict attached to each upserted vector. -/
def vecMetadata (doc_id filename : String) (email jurisdiction contract_type : Option String)
    (upload_time : String) (i : Nat) (c : Chunk) : List (String × Value) :=
  [("doc_id", .str doc_id),
   ("chunk_id", .str (chunkIdStr (i + 1))),
   ("filename", .str filename),
   ("text", .str (c.text.take 1000)),
   ("chunk_index", .int c.chunk_index),
   ("token_count", .int c.token_count),
   ("jurisdiction", .str (pyOrStr jurisdiction "unspecified")),
   ("contract_type", .str (pyOrStr contract_type "unspecified")),
   ("uploaded_by", .str (pyOrStr email "anonymous")),
   ("source_url", .str ""),
   ("upload_date", .str upload_time)]

/-- Semantics of one `index.upsert` of a single record: overwrite the record
with the same id if present, otherwise append. -/
def upsertOne (s : Store) (v : VectorRecord) : Store :=
  if s.any (fun r => r.id == v.id) then
    s.map (fun r => if r.id == v.id then v else r)
  else s ++ [v]

/-- Semantics of `index.upsert(vectors=batch)` for a batch of records. -/
def upsert (s : Store) (vs : List VectorRecord) : Store :=
  vs.foldl upsertOne s

/-- The batching loop `for i in range(0, len(vectors), 100)`: the slices
`vectors[i:i+100]` for each start produced by the stepped range. -/
def batchesOf (vs : List VectorRecord) : List (List VectorRecord) :=
  (List.range ((vs.length + 99) / 100)).map (fun i => (vs.drop (i * 100)).take 100)

/-- The batched upload to Pinecone in `upload_contract`. -/
def upsertBatches (s : Store) (vs : List VectorRecord) : Store :=
  (batchesOf vs).foldl upsert s

/-- Sum of the `token_count` fields of a chunk list (the
`sum(chunk["token_count"] for chunk in ...)` expressions). -/
def sumTokens (cs : List Chunk) : Nat :=
  (cs.map (fun c => c.token_count)).sum

/-- The `chunks` local of `upload_contract`. -/
def uploadChunks (env : Env) (text filename : String) : List Chunk :=
  chunk_document env.tok text filename

/-- The `existing_hashes` local of `upload_contract`. -/
def uploadExisting (env : Env) (store : Store) (text filename : String) : List String :=
  check_existing_chunks (uploadFetchFn env store)
    ((uploadChunks env text filename).map (fun c => c.chunk_hash))

/-- The `new_chunks` local of `upload_contract`: chunks whose hash was not
found in the store. -/
def uploadNewChunks (env : Env) (store : Store) (text filename : String) : List Chunk :=
  (uploadChunks env text filename).filter
    (fun c => !(uploadExisting env store text filename).contains c.chunk_hash)

/-- The `duplicate_indices` local of `upload_contract` (similarity check with
`threshold=0.97` against the current store). -/
def uploadDupIdx (env : Env) (store : Store) (embeddings : List (List ℚ)) : List Nat :=
  similarity_deduplication_check true (env.queryFn store) embeddings (97 / 100)

/-- The `final_chunks` local of `upload_contract`:
`[chunk for i, chunk in enumerate(new_chunks) if i not in duplicate_indices]`. -/
def uploadFinalChunks (env : Env) (store : Store) (text filename : String)
    (embeddings : List (List ℚ)) : List Chunk :=
  (((uploadNewChunks env store text filename).enum.filter
      (fun p => !(uploadDupIdx env store embeddings).contains p.1)).map Prod.snd)

/-- The `final_embeddings` local of `upload_contract`. -/
def uploadFinalEmbeddings (env : Env) (store : Store) (_text _filename : String)
    (embeddings : List (List ℚ)) : List (List ℚ) :=
  ((embeddings.enum.filter
      (fun p => !(uploadDupIdx env store embeddings).contains p.1)).map Prod.snd)

/-- The `{status: error}` dict returned when `self.index` is unavailable. -/
def uploadUnavailableDict : List (String × Value) :=
  [("status", .str "error"),
   ("error", .str "The knowledge database is temporarily unavailable. Please try again shortly.")]

/-- The early-return dict of `upload_contract` when every chunk hash already
exists (note the key `chunks_skipped`, not `chunks_skipped_hash`). -/
def alreadyExistsDict (filename : String) (chunks : List Chunk) : List (String × Value) :=
  [("status", .str "success"),
   ("filename", .str filename),
   ("chunks_created", .int 0),
   ("chunks_skipped", .int chunks.length),
   ("message", .str "Document already exists - no new chunks added"),
   ("total_tokens", .int (sumTokens chunks))]

/-- The early-return dict of `upload_contract` when every embedded chunk was a
similarity duplicate. -/
def allDupDict (filename : String) (chunks : List Chunk) : List (String × Value) :=
  [("status", .str "success"),
   ("filename", .str filename),
   ("chunks_created", .int 0),
   ("chunks_skipped", .int chunks.length),
   ("message", .str "All chunks were duplicates - no new vectors added"),
   ("total_tokens", .int (sumTokens chunks))]

/-- The `except` handler dict of `upload_contract`. -/
def uploadErrorDict (e : String) : List (String × Value) :=
  [("status", .str "error"),
   ("error", .str ("Failed to upload contract: " ++ e))]

/-- The success dict of `upload_contract`. -/
def uploadSuccessDict (filename doc_id : String) (final_chunks : List Chunk)
    (existing_hashes : List String) (duplicate_indices : List Nat) : List (String × Value) :=
  [("status", .str "success"),
   ("filename", .str filename),
   ("doc_id", .str doc_id),
   ("chunks_created", .int final_chunks.length),
   ("chunks_skipped_hash", .int existing_hashes.length),
   ("chunks_skipped_similarity", .int duplicate_indices.length),
   ("total_tokens", .int (sumTokens final_chunks)),
   ("index_name", .str "contracts-rag"),
   ("embedding_model", .str "text-embedding-3-small")]

/-- Model of `upload_contract`: chunk, hash-dedup, embed, similarity-dedup,
then batch-upsert. Returns the result dict together with the store contents
after the call. An embedding failure propagates to the outer handler before
any upsert. -/
def upload_contract (env : Env) (store : Store) (contract_text filename : String)
    (email jurisdiction contract_type : Option String) :
    List (String × Value) × Store :=
  if !env.indexAvailable then (uploadUnavailableDict, store)
  else
    let chunks := uploadChunks env contract_text filename
    let existing_hashes := uploadExisting env store contract_text filename
    let new_chunks := uploadNewChunks env store contract_text filename
    if new_chunks.isEmpty then (alreadyExistsDict filename chunks, store)
    else
      match get_embeddings env (new_chunks.map (fun c => c.text)) with
      | .error e => (uploadErrorDict e, store)
      | .ok embeddings =>
        let duplicate_indices := uploadDupIdx env store embeddings
        let final_chunks := uploadFinalChunks env store contract_text filename embeddings
        let final_embeddings := uploadFinalEmbeddings env store contract_text filename embeddings
        if final_chunks.isEmpty then (allDupDict filename chunks, store)
        else
          let doc_id := generate_doc_id filename env.upload_time
          let vectors := (final_chunks.zip final_embeddings).enum.map
            (fun p => VectorRecord.mk p.2.1.chunk_hash p.2.2
              (vecMetadata doc_id filename email jurisdiction contract_type
                env.upload_time p.1 p.2.1))
          (uploadSuccessDict filename doc_id final_chunks existing_hashes duplicate_indices,
           upsertBatches store vectors)

/-- The `chunk_data` dict built for each match in `_retrieve_relevant_chunks`
(its keys are fixed, so it is modelled as a structure). -/
structure RetrievedChunk where
  text : Value
  doc_id : Value
  chunk_id : Value
  filename : Value
  chunk_index : Value
  token_count : Value
  relevance_score : ℚ
  upload_date : Value
  uploaded_by : Value
  jurisdiction : Value
  contract_type : Value

/-- Build one `chunk_data` entry from a query match
(`match.metadata.get(key, default)` for each field). -/
def toRetrievedChunk (m : QueryMatch) : RetrievedChunk :=
  { text := (dictGet m.metadata "text").getD (.str "")
    doc_id := (dictGet m.metadata "doc_id").getD (.str "")
    chunk_id := (dictGet m.metadata "chunk_id").getD (.str "")
    filename := (dictGet m.metadata "filename").getD (.str "")
    chunk_index := (dictGet m.metadata "chunk_index").getD (.int 0)
    token_count := (dictGet m.metadata "token_count").getD (.int 0)
    relevance_score := m.score
    upload_date := (dictGet m.metadata "upload_date").getD (.str "")
    uploaded_by := (dictGet m.metadata "uploaded_by").getD (.str "")
    jurisdiction := (dictGet m.metadata "jurisdiction").getD (.str "")
    contract_type := (dictGet m.metadata "contract_type").getD (.str "") }

/-- Model of `_retrieve_relevant_chunks`: embed the query and run a top-k
index query; any exception inside the `try` (embedding failure, `[0]` on an
empty embedding list, or a query raise) is caught and yields `[]`. -/
def retrieve_relevant_chunks (env : Env) (store : Store) (query : String) (k : Nat) :
    List RetrievedChunk :=
  if !env.indexAvailable then []
  else
    match get_embeddings env [query] with
    | .error _ => []
    | .ok qembs =>
      match qembs.head? with
      | none => []
      | some qe =>
        match env.queryFn store qe k with
        | .error _ => []
        | .ok ms => ms.map toRetrievedChunk

/-- The `non_contract_indicators` keyword list of `ask_contract`. -/
def non_contract_indicators : List String :=
  ["weather", "joke", "recipe", "cook", "food", "movie", "music", "game",
   "sports", "news", "time", "date", "math", "calculate", "translate",
   "directions", "travel", "shopping", "restaurant", "hotel", "flight"]

/-- The `contract_keywords` list of `ask_contract`. -/
def contract_keywords : List String :=
  ["contract", "agreement", "legal", "sla", "msa", "nda", "clause", "terms",
   "service level"]

/-- The safety-filter condition of `ask_contract`: some non-contract indicator
occurs in `query.lower().strip()` and no contract keyword does. -/
def queryFiltered (query : String) : Bool :=
  let query_lower := lowerStripChars query
  let is_contract_query := contract_keywords.any (fun k => subOccurs query_lower k.toList)
  (non_contract_indicators.any (fun ind => subOccurs query_lower ind.toList))
    && !is_contract_query

/-- The dict returned for a filtered non-contract query. -/
def filteredDict : List (String × Value) :=
  [("error", .str "FILTERED_NON_CONTRACT_QUERY"),
   ("query_type", .str "non_contract"),
   ("purpose_statement", .str "Hi there! I'm your AI Contract Review Assistant, and I specialize in helping with legal documents and contract-related questions. Is there anything contract or legal-related I can help you with today?"),
   ("risky_clauses", .list []),
   ("missing_protections", .list []),
   ("overall_risk_score", .int 0),
   ("summary", .str "Query filtered as non-contract related"),
   ("notes", .list [.str "This query appears to be outside my contract analysis expertise"])]

/-- The dict returned by `ask_contract` when `self.index` is unavailable. -/
def askUnavailableDict : List (String × Value) :=
  [("error", .str "The knowledge database is temporarily unavailable. Please try again shortly."),
   ("risky_clauses", .list []),
   ("missing_protections", .list []),
   ("overall_risk_score", .int 0),
   ("summary", .str "Vector database connection unavailable"),
   ("notes", .list [.str "Please try again in a few moments"])]

/-- The `json.JSONDecodeError` handler dict of `ask_contract`. -/
def askParseErrorDict (details : String) : List (String × Value) :=
  [("error", .str "Failed to parse AI response"),
   ("details", .str details),
   ("risky_clauses", .list []),
   ("missing_protections", .list []),
   ("overall_risk_score", .int 0),
   ("summary", .str "Analysis parsing failed"),
   ("notes", .list [])]

/-- The generic `except` handler dict of `ask_contract`. -/
def askGenericErrorDict (details : String) : List (String × Value) :=
  [("error", .str "Analysis failed"),
   ("details", .str details),
   ("risky_clauses", .list []),
   ("missing_protections", .list []),
   ("overall_risk_score", .int 0),
   ("summary", .str "Contract analysis could not be completed"),
   ("notes", .list [])]

/-- Decidable check that a returned risk value is a number lying in the
inclusive range [0, 10] (Python booleans are the integers 0 and 1). -/
def riskOk : Value → Bool
  | .int n => decide (0 ≤ n ∧ n ≤ 10)
  | .rat q => decide (0 ≤ q ∧ q ≤ 10)
  | .bool _ => true
  | _ => false

/-- Python `min(10, max(0, analysis_data.get("overall_risk_score", 0)))`:
clamps numeric values; a missing key defaults to `0`; `bool` is an `int`
subtype in Python (`max(0, False) = 0`, `max(0, True) = True`); any other
type raises `TypeError`, which is caught by the surrounding handler. -/
def pyClampRisk : Option Value → Except String Value
  | none => .ok (.int 0)
  | some (.int n) => .ok (.int (min 10 (max 0 n)))
  | some (.rat q) => .ok (.rat (min 10 (max 0 q)))
  | some (.bool b) => .ok (if b then Value.bool true else Value.int 0)
  | some _ => .error "unsupported operand type for comparison"

/-- The summary step of `_format_analysis_response_with_citations`:
`summary = analysis_data.get("summary", "")`, then append the top-3 source
citations when both `sources_info` and `summary` are truthy; `+=` on a
non-string truthy summary raises `TypeError`. -/
def citeSummary (v : Option Value) (sources_info : List String) : Except String Value :=
  match v.getD (.str "") with
  | .str s =>
    .ok (.str (if !sources_info.isEmpty && s != "" then
      s ++ "\n\nSources: " ++ String.intercalate ", " (sources_info.take 3)
    else s))
  | w =>
    if !sources_info.isEmpty && isTruthy w then .error "can only concatenate str"
    else .ok w

/-- Python `list(set(xs))` over modelled values: deduplication (first
occurrence kept; Python set ordering is not observed by any claim). -/
def pySetValues (xs : List Value) : List Value :=
  xs.foldl (fun acc v => if acc.any (fun w => w == v) then acc else acc ++ [v]) []

/-- Model of `_format_analysis_response_with_citations`; the `Except` carries
a `TypeError` raised while appending citations or clamping the risk score,
which `ask_contract`'s generic handler catches. -/
def format_analysis_response_with_citations (analysis_data : List (String × Value))
    (chunks : List RetrievedChunk) : Except String (List (String × Value)) :=
  let sources_info := chunks.filterMap (fun c =>
    if isTruthy c.doc_id && isTruthy c.chunk_id then
      some ("[Source: " ++ pyStr c.doc_id ++ ", " ++ pyStr c.chunk_id ++ "]")
    else none)
  match citeSummary (dictGet analysis_data "summary") sources_info with
  | .error e => .error e
  | .ok summaryV =>
    match pyClampRisk (dictGet analysis_data "overall_risk_score") with
    | .error e => .error e
    | .ok riskV =>
      .ok [("risky_clauses", (dictGet analysis_data "risky_clauses").getD (.list [])),
           ("missing_protections", (dictGet analysis_data "missing_protections").getD (.list [])),
           ("overall_risk_score", riskV),
           ("summary", summaryV),
           ("notes", (dictGet analysis_data "notes").getD (.list [])),
           ("retrieved_chunks", .int chunks.length),
           ("source_documents", .list (pySetValues (chunks.map (fun c => c.filename)))),
           ("source_citations", .list (sources_info.map .str)),
           ("doc_ids_referenced", .list (pySetValues (chunks.filterMap (fun c =>
             if isTruthy c.doc_id then some c.doc_id else none)))),
           ("storage_type", .str "pinecone_persistent_with_citations")]

/-- The `except` handler dict of `_get_global_best_practices_response`. -/
def fallbackErrorDict : List (String × Value) :=
  [("risky_clauses", .list []),
   ("missing_protections", .list []),
   ("overall_risk_score", .int 0),
   ("summary", .str "No documents uploaded yet. I'd be happy to help with general contract guidance! For specific analysis of your contracts, please upload your documents first."),
   ("notes", .list
     [.str "💡 To get specific analysis of your contracts:",
      .str "• Upload your contract documents through the web interface",
      .str "• Ask questions about specific clauses in your uploaded documents",
      .str "• Get personalized risk assessments and recommendations",
      .str "• I can help you understand any contract terms once you upload your documents!"]),
   ("retrieved_chunks", .int 0),
   ("source_documents", .list []),
   ("storage_type", .str "fallback_error")]

/-- Model of `_get_global_best_practices_response`: call the fallback
chat-completion oracle; any exception (API failure, unparsable JSON, or a
`TypeError` while clamping the risk score) lands in the `except` handler.
The query/jurisdiction/contract-type arguments only shape the prompt of the
abstracted oracle. -/
def get_global_best_practices_response (env : Env) (_query : String)
    (_jurisdiction _contract_type : Option String) : List (String × Value) :=
  match env.llmFallback with
  | .ok analysis_data =>
    match pyClampRisk (dictGet analysis_data "overall_risk_score") with
    | .error _ => fallbackErrorDict
    | .ok riskV =>
      [("risky_clauses", (dictGet analysis_data "risky_clauses").getD (.list [])),
       ("missing_protections", (dictGet analysis_data "missing_protections").getD (.list [])),
       ("overall_risk_score", riskV),
       ("summary", (dictGet analysis_data "summary").getD (.str "No documents uploaded yet. I'd be happy to help with general contract guidance, and once you upload documents, I can provide specific analysis!")),
       ("notes", (dictGet analysis_data "notes").getD (.list [.str "This response is based on general best practices since no relevant documents were found"])),
       ("retrieved_chunks", .int 0),
       ("source_documents", .list []),
       ("storage_type", .str "global_fallback"),
       ("fallback_used", .bool true)]
  | .parseErr _ => fallbackErrorDict
  | .fail _ => fallbackErrorDict

/-- Model of `ask_contract`: keyword safety filter, index availability check,
top-7 retrieval, then either the global fallback (no chunks) or the main
analysis call with citation formatting; `json.JSONDecodeError` and generic
exceptions have distinct handlers. -/
def ask_contract (env : Env) (store : Store) (query : String)
    (jurisdiction contract_type : Option String) : List (String × Value) :=
  if queryFiltered query then filteredDict
  else if !env.indexAvailable then askUnavailableDict
  else
    let relevant_chunks := retrieve_relevant_chunks env store query 7
    if relevant_chunks.isEmpty then
      get_global_best_practices_response env query jurisdiction contract_type
    else
      match env.llmMain with
      | .fail e => askGenericErrorDict e
      | .parseErr e => askParseErrorDict e
      | .ok analysis_data =>
        match format_analysis_response_with_citations analysis_data relevant_chunks with
        | .ok d => d
        | .error e => askGenericErrorDict e

/-! Helper lemmas about the chunker. -/

theorem step_eq : chunk_size - overlap = 700 := rfl

theorem lt_numChunks (i n : Nat) : i < numChunks n ↔ i * 700 < n := by
  unfold numChunks
  rw [step_eq]
  have h := @Nat.le_div_iff_mul_le 700 (i + 1) (n + 700 - 1) (by decide)
  constructor
  · intro hlt
    have := h.mp hlt
    omega
  · intro hlt
    exact h.mpr (by omega)

theorem chunk_document_length (tok : Tokenizer) (text filename : String) :
    (chunk_document tok text filename).length = numChunks (tok.encode text).length := by
  simp [chunk_document, chunkStarts]

theorem chunk_document_getElem (tok : Tokenizer) (text filename : String) (i : Nat) :
    (chunk_document tok text filename)[i]? =
      if i * 700 < (tok.encode text).length then
        some (makeChunk tok (tok.encode text) filename i (i * 700))
      else none := by
  unfold chunk_document chunkStarts
  rw [List.getElem?_map, List.getElem?_enum]
  by_cases h : i * 700 < (tok.encode text).length
  · have hi : i < numChunks (tok.encode text).length := (lt_numChunks ..).mpr h
    rw [List.getElem?_map, List.getElem?_range hi]
    simp [h, step_eq]
  · have hi : ¬ i < numChunks (tok.encode text).length := fun hc => h ((lt_numChunks ..).mp hc)
    rw [List.getElem?_eq_none (by simpa using Nat.le_of_not_lt hi)]
    simp [h]

theorem makeChunk_token_count (tok : Tokenizer) (tokens : List Nat) (fn : String) (idx i : Nat) :
    (makeChunk tok tokens fn idx i).token_count = min (i + chunk_size) tokens.length - i := by
  unfold makeChunk
  simp [List.length_take, List.length_drop]
  omega

theorem makeChunk_start_token (tok : Tokenizer) (tokens : List Nat) (fn : String) (idx i : Nat) :
    (makeChunk tok tokens fn idx i).start_token = i := rfl

theorem makeChunk_end_token (tok : Tokenizer) (tokens : List Nat) (fn : String) (idx i : Nat) :
    (makeChunk tok tokens fn idx i).end_token = min (i + chunk_size) tokens.length := rfl

/-- C1: for every input text whose tokenization has exactly 2000 tokens,
`_chunk_document` (with `chunk_size = 800`, `overlap = 100`) returns exactly
3 chunks, with `start_token` offsets 0, 700, 1400, `end_token` offsets
800, 1500, 2000, and token counts 800, 800, 600 (so the final chunk has
`token_count = 600`). -/
theorem chunk_document_2000_tokens (tok : Tokenizer) (text filename : String)
    (h : (tok.encode text).length = 2000) :
    (chunk_document tok text filename).length = 3 ∧
    (chunk_document tok text filename).map (fun c => c.start_token) = [0, 700, 1400] ∧
    (chunk_document tok text filename).map (fun c => c.end_token) = [800, 1500, 2000] ∧
    (chunk_document tok text filename).map (fun c => c.token_count) = [800, 800, 600] := by
  have hs : chunkStarts 2000 = [0, 700, 1400] := by decide
  refine ⟨?_, ?_, ?_, ?_⟩ <;>
    simp only [chunk_document, h, hs] <;>
    simp [List.enum, List.enumFrom, makeChunk, List.length_take, List.length_drop, h] <;>
    simp [chunk_size]

/-- C2: every chunk produced by `_chunk_document` has
`token_count ≤ chunk_size`; each pair of consecutive chunks overlaps by
exactly `overlap = 100` tokens of the token sequence, except that the final
chunk may overlap by fewer when it is shorter than the window; and an empty
tokenization produces zero chunks. -/
theorem chunk_document_invariants (tok : Tokenizer) (text filename : String) :
    (∀ c ∈ chunk_document tok text filename, c.token_count ≤ chunk_size) ∧
    (∀ i a b, (chunk_document tok text filename)[i]? = some a →
      (chunk_document tok text filename)[i + 1]? = some b →
      b.start_token ≤ a.end_token ∧
      (a.end_token - b.start_token = overlap ∨
        ((chunk_document tok text filename)[i + 2]? = none ∧
          b.token_count < chunk_size ∧
          a.end_token - b.start_token < overlap))) ∧
    (tok.encode text = [] → chunk_document tok text filename = []) := by
  refine ⟨?_, ?_, ?_⟩
  · intro c hc
    obtain ⟨i, hi⟩ := List.mem_iff_getElem?.mp hc
    rw [chunk_document_getElem] at hi
    by_cases h : i * 700 < (tok.encode text).length
    · rw [if_pos h] at hi
      cases hi
      rw [makeChunk_token_count]
      unfold chunk_size
      omega
    · rw [if_neg h] at hi
      cases hi
  · intro i a b ha hb
    rw [chunk_document_getElem] at ha hb
    by_cases h1 : (i + 1) * 700 < (tok.encode text).length
    · have h0 : i * 700 < (tok.encode text).length := by omega
      rw [if_pos h0] at ha
      rw [if_pos h1] at hb
      cases ha
      cases hb
      rw [chunk_document_getElem]
      rw [makeChunk_token_count, makeChunk_start_token, makeChunk_end_token]
      simp only [chunk_size, overlap]
      constructor
      · omega
      · by_cases h2 : i * 700 + 800 ≤ (tok.encode text).length
        · left
          omega
        · right
          rw [if_neg (by omega)]
          refine ⟨rfl, by omega, by omega⟩
    · rw [if_neg h1] at hb
      cases hb
  · intro h
    have hlen : (tok.encode text).length = 0 := by simp [h]
    have h0 : chunkStarts 0 = [] := by decide
    simp [chunk_document, hlen, h0]

/-- Concrete tokenizer whose encoding always has 2000 tokens, used to witness
the 2000-token chunking theorem. -/
def tok2000 : Tokenizer :=
  ⟨fun _ => List.range 2000, fun _ => ""⟩

/-- Witness for the 2000-token chunking theorem at a concrete tokenizer. -/
theorem chunk_document_2000_tokens_witness :
    (tok2000.encode "x").length = 2000 ∧
    (chunk_document tok2000 "x" "contract.txt").map (fun c => c.token_count) = [800, 800, 600] :=
  ⟨by simp [tok2000],
   (chunk_document_2000_tokens tok2000 "x" "contract.txt" (by simp [tok2000])).2.2.2⟩

/-- Tokenizer that encodes every text to the empty token list. -/
def tokEmpty : Tokenizer :=
  ⟨fun _ => [], fun _ => ""⟩

/-- Witness for the chunker invariants: the empty tokenization yields zero
chunks. -/
theorem chunk_document_invariants_witness :
    chunk_document tokEmpty "" "f" = [] :=
  (chunk_document_invariants tokEmpty "" "f").2.2 rfl

/-! Helper lemmas about the similarity deduplication loop. -/

theorem simQueryLoop_ok (queryFn : List ℚ → Nat → Except String (List QueryMatch))
    (threshold : ℚ) :
    ∀ (l : List (List ℚ)) (base : Nat),
      (∀ e ∈ l, ∃ ms, queryFn e 3 = .ok ms) →
      ∃ res, simQueryLoop queryFn threshold l base = .ok res ∧
        ∀ j, j ∈ res ↔ ∃ k, ∃ hk : k < l.length, j = base + k ∧
          ∃ ms, queryFn l[k] 3 = .ok ms ∧ ms.any (fun m => m.score > threshold) = true := by
  intro l
  induction l with
  | nil =>
    intro base _
    refine ⟨[], rfl, ?_⟩
    simp
  | cons e rest ih =>
    intro base hq
    obtain ⟨ms0, hms0⟩ := hq e (by simp)
    obtain ⟨tail, htail, hmem⟩ := ih (base + 1) (fun x hx => hq x (by simp [hx]))
    by_cases hdup : ms0.any (fun m => m.score > threshold) = true
    · refine ⟨base :: tail, ?_, ?_⟩
      · unfold simQueryLoop
        rw [hms0, htail]
        simp [hdup]
      · intro j
        simp only [List.mem_cons, hmem j]
        constructor
        · rintro (rfl | ⟨k, hk, rfl, ms, hqk, hany⟩)
          · exact ⟨0, by simp, by simp, ms0, by simpa using hms0, hdup⟩
          · exact ⟨k + 1, by simpa using hk, by omega, ms, by simpa using hqk, hany⟩
        · rintro ⟨k, hk, rfl, ms, hqk, hany⟩
          cases k with
          | zero => left; simp
          | succ k2 =>
            right
            refine ⟨k2, by simpa using hk, by omega, ms, by simpa using hqk, hany⟩
    · refine ⟨tail, ?_, ?_⟩
      · unfold simQueryLoop
        rw [hms0, htail]
        simp [hdup]
      · intro j
        rw [hmem j]
        constructor
        · rintro ⟨k, hk, rfl, ms, hqk, hany⟩
          exact ⟨k + 1, by simpa using hk, by omega, ms, by simpa using hqk, hany⟩
        · rintro ⟨k, hk, rfl, ms, hqk, hany⟩
          cases k with
          | zero =>
            simp only [List.getElem_cons_zero] at hqk
            rw [hms0] at hqk
            cases hqk
            exact absurd hany hdup
          | succ k2 =>
            refine ⟨k2, by simpa using hk, by omega, ms, by simpa using hqk, hany⟩

/-- C5: with the index available and the top-3 queries succeeding,
`_similarity_deduplication_check` marks index `i` as a duplicate exactly when
some returned neighbour's score is strictly greater than the 0.97 threshold;
a score equal to the threshold does not mark it. -/
theorem similarity_dedup_strict_threshold
    (queryFn : List ℚ → Nat → Except String (List QueryMatch))
    (embs : List (List ℚ))
    (hq : ∀ e ∈ embs, ∃ ms, queryFn e 3 = .ok ms)
    (i : Nat) (hi : i < embs.length) :
    i ∈ similarity_deduplication_check true queryFn embs (97 / 100) ↔
      ∃ ms, queryFn embs[i] 3 = .ok ms ∧
        ms.any (fun m => m.score > 97 / 100) = true := by
  obtain ⟨res, hres, hmem⟩ := simQueryLoop_ok queryFn (97 / 100) embs 0 hq
  unfold similarity_deduplication_check
  rw [if_neg (by simp)]
  rw [hres]
  rw [hmem i]
  constructor
  · rintro ⟨k, hk, hik, ms, hqk, hany⟩
    have : k = i := by omega
    subst this
    exact ⟨ms, hqk, hany⟩
  · rintro ⟨ms, hqk, hany⟩
    exact ⟨i, hi, by omega, ms, hqk, hany⟩

/-- Concrete top-3 query oracle: the neighbour of embedding `[1]` scores
exactly 0.97, the neighbour of embedding `[2]` scores 0.98. -/
def queryFnW : List ℚ → Nat → Except String (List QueryMatch) :=
  fun e _ =>
    if e == [(1 : ℚ)] then .ok [⟨"m1", 97 / 100, []⟩]
    else .ok [⟨"m2", 98 / 100, []⟩]

/-- Witness for the strict-threshold theorem: a 0.97-scored neighbour does
not mark its embedding while a 0.98-scored one does. -/
theorem similarity_dedup_strict_threshold_witness :
    ¬ 0 ∈ similarity_deduplication_check true queryFnW [[(1 : ℚ)], [(2 : ℚ)]] (97 / 100) ∧
    1 ∈ similarity_deduplication_check true queryFnW [[(1 : ℚ)], [(2 : ℚ)]] (97 / 100) := by
  have hq : ∀ e ∈ [[(1 : ℚ)], [(2 : ℚ)]], ∃ ms, queryFnW e 3 = .ok ms := by
    intro e he
    unfold queryFnW
    by_cases h : e == [(1 : ℚ)]
    · rw [if_pos h]; exact ⟨_, rfl⟩
    · rw [if_neg h]; exact ⟨_, rfl⟩
  constructor
  · rw [similarity_dedup_strict_threshold queryFnW [[(1 : ℚ)], [(2 : ℚ)]] hq 0 (by decide)]
    rintro ⟨ms, hok, hany⟩
    have : ms = [⟨"m1", 97 / 100, []⟩] := by
      rw [show queryFnW [[(1 : ℚ)], [(2 : ℚ)]][0] 3 = .ok [⟨"m1", 97 / 100, []⟩] from rfl] at hok
      cases hok
      rfl
    subst this
    norm_num at hany
  · rw [similarity_dedup_strict_threshold queryFnW [[(1 : ℚ)], [(2 : ℚ)]] hq 1 (by decide)]
    refine ⟨[⟨"m2", 98 / 100, []⟩], rfl, ?_⟩
    norm_num

theorem checkLoop_eq_filter (fetchFn : String → Except String Bool) (l : List String) :
    checkLoop fetchFn l =
      l.filter (fun h => match fetchFn h with | .ok true => true | _ => false) := by
  induction l with
  | nil => rfl
  | cons a t ih =>
    unfold checkLoop
    cases hfa : fetchFn a with
    | error e => simp [List.filter_cons, hfa, ih]
    | ok b => cases b <;> simp [List.filter_cons, hfa, ih]

/-- C8: `_check_existing_chunks` equals a filter keeping the hashes whose
point lookup succeeds with a hit; a hash whose lookup raises is omitted
rather than failing the batch, and every other hash is still checked. -/
theorem check_existing_chunks_skips_errors
    (fetchFn : String → Except String Bool) (hashes : List String) :
    check_existing_chunks fetchFn hashes =
      hashes.filter (fun h => match fetchFn h with | .ok true => true | _ => false) ∧
    (∀ h e, fetchFn h = .error e → h ∉ check_existing_chunks fetchFn hashes) ∧
    (∀ h ∈ hashes, fetchFn h = .ok true → h ∈ check_existing_chunks fetchFn hashes) := by
  refine ⟨checkLoop_eq_filter fetchFn hashes, ?_, ?_⟩
  · intro h e he hmem
    unfold check_existing_chunks at hmem
    rw [checkLoop_eq_filter] at hmem
    have := (List.mem_filter.mp hmem).2
    rw [he] at this
    simp at this
  · intro h hh hok
    unfold check_existing_chunks
    rw [checkLoop_eq_filter]
    refine List.mem_filter.mpr ⟨hh, ?_⟩
    rw [hok]

/-- Concrete fetch oracle: the lookup of `"bad"` raises, `"hit"` is stored,
`"miss"` is not. -/
def fetchFnW : String → Except String Bool :=
  fun h => if h == "bad" then .error "store unavailable" else .ok (h == "hit")

/-- Witness for the lookup-error theorem: the erroring hash is omitted while
a later stored hash is still found. -/
theorem check_existing_chunks_skips_errors_witness :
    "bad" ∉ check_existing_chunks fetchFnW ["bad", "hit", "miss"] ∧
    "hit" ∈ check_existing_chunks fetchFnW ["bad", "hit", "miss"] :=
  ⟨(check_existing_chunks_skips_errors fetchFnW ["bad", "hit", "miss"]).2.1
      "bad" "store unavailable" rfl,
   (check_existing_chunks_skips_errors fetchFnW ["bad", "hit", "miss"]).2.2
      "hit" (by simp) rfl⟩

/-- C6: when the embedding call raises during `upload_contract`, the call
returns the structured error dict (status `"error"` with the wrapped
message) and the store is unchanged: no upsert happens. -/
theorem upload_embedding_failure_aborts
    (env : Env) (store : Store) (text filename : String)
    (email jurisdiction contract_type : Option String)
    (ha : env.indexAvailable = true)
    (hnew : (uploadNewChunks env store text filename).isEmpty = false)
    (msg : String)
    (herr : env.embed ((uploadNewChunks env store text filename).map (fun c => c.text)) =
      .error msg) :
    upload_contract env store text filename email jurisdiction contract_type =
      (uploadErrorDict ("Failed to generate embeddings: " ++ msg), store) := by
  unfold upload_contract get_embeddings
  simp [ha, hnew, herr]

/-- Concrete environment whose embedding API always raises. -/
def envEmbErr : Env :=
  { tok := ⟨fun _ => [5], fun _ => "txt"⟩
    indexAvailable := true
    embed := fun _ => .error "rate limit"
    queryFn := fun _ _ _ => .ok []
    fetchRaises := fun _ _ => false
    upload_time := "t0"
    llmMain := .fail "x"
    llmFallback := .fail "x" }

/-- Witness for the embedding-failure theorem at a concrete upload. -/
theorem upload_embedding_failure_aborts_witness :
    upload_contract envEmbErr [] "T" "f" none none none =
      (uploadErrorDict ("Failed to generate embeddings: " ++ "rate limit"), []) :=
  upload_embedding_failure_aborts envEmbErr [] "T" "f" none none none rfl rfl
    "rate limit" rfl

/-- C10: the `total_tokens` field of `upload_contract` sums over all chunks
of the document when every chunk was skipped (by hash, or by similarity
after embedding), but sums over only the stored final chunks when at least
one new chunk is upserted. -/
theorem upload_total_tokens_branches
    (env : Env) (store : Store) (text filename : String)
    (email jurisdiction contract_type : Option String)
    (ha : env.indexAvailable = true) :
    ((uploadNewChunks env store text filename).isEmpty = true →
      dictGet (upload_contract env store text filename email jurisdiction contract_type).1
        "total_tokens" = some (.int (sumTokens (uploadChunks env text filename)))) ∧
    (∀ embs, env.embed ((uploadNewChunks env store text filename).map (fun c => c.text)) =
        .ok embs →
      (uploadFinalChunks env store text filename embs).isEmpty = true →
      dictGet (upload_contract env store text filename email jurisdiction contract_type).1
        "total_tokens" = some (.int (sumTokens (uploadChunks env text filename)))) ∧
    (∀ embs, env.embed ((uploadNewChunks env store text filename).map (fun c => c.text)) =
        .ok embs →
      (uploadFinalChunks env store text filename embs).isEmpty = false →
      dictGet (upload_contract env store text filename email jurisdiction contract_type).1
        "total_tokens" =
        some (.int (sumTokens (uploadFinalChunks env store text filename embs)))) := by
  refine ⟨?_, ?_, ?_⟩
  · intro hnew
    unfold upload_contract
    simp [ha, hnew, alreadyExistsDict, dictGet]
  · intro embs hok hfin
    by_cases hnew : (uploadNewChunks env store text filename).isEmpty = true
    · unfold upload_contract
      simp [ha, hnew, alreadyExistsDict, dictGet]
    · unfold upload_contract get_embeddings
      simp only [Bool.not_eq_true] at hnew
      simp [ha, hnew, hok, hfin, allDupDict, dictGet]
  · intro embs hok hfin
    have hnew : (uploadNewChunks env store text filename).isEmpty = false := by
      by_contra hc
      simp only [Bool.not_eq_false] at hc
      have hempty : uploadNewChunks env store text filename = [] :=
        List.isEmpty_iff.mp hc
      have : uploadFinalChunks env store text filename embs = [] := by
        simp [uploadFinalChunks, hempty]
      rw [this] at hfin
      simp at hfin
    unfold upload_contract get_embeddings
    simp [ha, hnew, hok, hfin, uploadSuccessDict, dictGet]

/-- Store that already holds the single chunk of the text `"T"` under
`envEmbOk`, so a re-upload is fully hash-skipped. -/
def storeHasChunk : Store :=
  [⟨"f:txt", [1], []⟩]

/-- Concrete environment with a working embedding API, for the total-token
witness. -/
def envEmbOk : Env :=
  { tok := ⟨fun _ => [5], fun _ => "txt"⟩
    indexAvailable := true
    embed := fun _ => .ok [[1]]
    queryFn := fun _ _ _ => .ok []
    fetchRaises := fun _ _ => false
    upload_time := "t0"
    llmMain := .fail "x"
    llmFallback := .fail "x" }

/-- Witness for the total-token theorem: an upload whose only chunk is
hash-skipped reports the full document's token count. -/
theorem upload_total_tokens_branches_witness :
    dictGet (upload_contract envEmbOk storeHasChunk "T" "f" none none none).1
      "total_tokens" = some (.int (sumTokens (uploadChunks envEmbOk "T" "f"))) :=
  (upload_total_tokens_branches envEmbOk storeHasChunk "T" "f" none none none rfl).1 rfl

/-! Helper lemmas about the batched upsert. -/

theorem batchesOf_flatten (vs : List VectorRecord) : (batchesOf vs).flatten = vs := by
  by_cases h0 : vs.length = 0
  · have hnil : vs = [] := List.length_eq_zero.mp h0
    subst hnil
    rfl
  · by_cases h1 : vs.length ≤ 100
    · have hdiv : (vs.length + 99) / 100 = 1 := by omega
      unfold batchesOf
      rw [hdiv]
      show ((List.range 1).map (fun i => (vs.drop (i * 100)).take 100)).flatten = vs
      rw [show List.range 1 = [0] from rfl, List.map_cons, List.map_nil, List.flatten_cons,
        List.flatten_nil]
      rw [Nat.zero_mul, List.drop_zero, List.append_nil]
      exact List.take_of_length_le h1
    · have hlen : (vs.drop 100).length = vs.length - 100 := by simp
      have IH := batchesOf_flatten (vs.drop 100)
      have hdiv : (vs.length + 99) / 100 = ((vs.drop 100).length + 99) / 100 + 1 := by
        rw [hlen]
        omega
      unfold batchesOf
      rw [hdiv, List.range_succ_eq_map, List.map_cons, List.map_map, List.flatten_cons]
      have hmap : (List.range (((vs.drop 100).length + 99) / 100)).map
            ((fun i => (vs.drop (i * 100)).take 100) ∘ Nat.succ) =
          (List.range (((vs.drop 100).length + 99) / 100)).map
            (fun i => ((vs.drop 100).drop (i * 100)).take 100) := by
        refine List.map_congr_left ?_
        intro i _
        show (vs.drop (Nat.succ i * 100)).take 100 = ((vs.drop 100).drop (i * 100)).take 100
        rw [List.drop_drop]
        congr 2
        omega
      rw [hmap]
      unfold batchesOf at IH
      rw [IH]
      simp
termination_by vs.length
decreasing_by
  simp only [List.length_drop]
  omega

theorem upsert_append (s : Store) (a b : List VectorRecord) :
    upsert s (a ++ b) = upsert (upsert s a) b :=
  List.foldl_append ..

theorem foldl_upsert_flatten (bs : List (List VectorRecord)) (s : Store) :
    bs.foldl upsert s = upsert s bs.flatten := by
  induction bs generalizing s with
  | nil => rfl
  | cons b rest ih =>
    simp only [List.foldl_cons, List.flatten_cons]
    rw [ih, upsert_append]

theorem upsertBatches_eq (s : Store) (vs : List VectorRecord) :
    upsertBatches s vs = upsert s vs := by
  unfold upsertBatches
  rw [foldl_upsert_flatten, batchesOf_flatten]

theorem upsertOne_any_id (s : Store) (v : VectorRecord) (h : String) :
    (upsertOne s v).any (fun r => r.id == h) =
      (s.any (fun r => r.id == h) || (v.id == h)) := by
  unfold upsertOne
  by_cases hs : s.any (fun r => r.id == v.id)
  · rw [if_pos hs]
    rw [List.any_map]
    by_cases hvh : v.id = h
    · subst hvh
      obtain ⟨r, hr, hrid⟩ := List.any_eq_true.mp hs
      simp only [beq_iff_eq] at hrid
      have hle : (s.any ((fun r => r.id == v.id) ∘ fun r => if r.id == v.id then v else r)) = true := by
        refine List.any_eq_true.mpr ⟨r, hr, ?_⟩
        simp [hrid]
      rw [hle]
      simp
    · have hne : (v.id == h) = false := by
        simp [hvh]
      rw [hne, Bool.or_false]
      rcases hb : s.any (fun r => r.id == h) with _ | _
      · refine (Bool.eq_false_iff).mpr ?_
        intro hc
        obtain ⟨r, hr, hrp⟩ := List.any_eq_true.mp hc
        simp only [Function.comp] at hrp
        by_cases hrv : r.id = v.id
        · rw [if_pos (by simp [hrv])] at hrp
          exact hvh (by simpa using hrp)
        · rw [if_neg (by simp [hrv])] at hrp
          have : s.any (fun r => r.id == h) = true :=
            List.any_eq_true.mpr ⟨r, hr, hrp⟩
          rw [hb] at this
          cases this
      · obtain ⟨r, hr, hrp⟩ := List.any_eq_true.mp hb
        refine List.any_eq_true.mpr ⟨r, hr, ?_⟩
        simp only [Function.comp]
        have hrv : ¬ r.id = v.id := by
          intro hc
          rw [hc] at hrp
          exact hvh (by simpa using hrp)
        rw [if_neg (by simp [hrv])]
        exact hrp
  · rw [if_neg hs]
    rw [List.any_append]
    simp

theorem upsert_any_id (vs : List VectorRecord) (s : Store) (h : String) :
    (upsert s vs).any (fun r => r.id == h) =
      (s.any (fun r => r.id == h) || vs.any (fun v => v.id == h)) := by
  induction vs generalizing s with
  | nil => simp [upsert]
  | cons v rest ih =>
    show (upsert (upsertOne s v) rest).any (fun r => r.id == h) = _
    rw [ih, upsertOne_any_id]
    simp [Bool.or_assoc]

/-! Helper lemmas for the rerun analysis of `upload_contract`. -/

theorem filter_length_eq_self {α : Type} (p : α → Bool) (l : List α)
    (h : (l.filter p).length = l.length) : l.filter p = l := by
  simp at h
  exact List.filter_eq_self.mpr h

theorem enum_mem_of_lt {α : Type} (l : List α) (i : Nat) (hi : i < l.length) :
    (i, l[i]) ∈ l.enum := by
  rw [List.mem_iff_getElem?]
  exact ⟨i, by rw [List.getElem?_enum, List.getElem?_eq_getElem hi]; rfl⟩

theorem enum_fst_lt {α : Type} (l : List α) (p : Nat × α) (hp : p ∈ l.enum) :
    p.1 < l.length := by
  obtain ⟨j, hj⟩ := List.mem_iff_getElem?.mp hp
  rw [List.getElem?_enum] at hj
  cases hl : l[j]? with
  | none => rw [hl] at hj; cases hj
  | some a =>
    rw [hl] at hj
    cases hj
    exact (List.getElem?_eq_some.mp hl).1

theorem zip_enumFrom_map_hash {α β γ : Type} (g : α → γ) :
    ∀ (cs : List α) (es : List β) (n : Nat), cs.length ≤ es.length →
      ((cs.zip es).enumFrom n).map (fun p => g p.2.1) = cs.map g := by
  intro cs
  induction cs with
  | nil => intro es n _; rfl
  | cons c ct ih =>
    intro es n hle
    cases es with
    | nil => simp at hle
    | cons e et =>
      rw [List.zip_cons_cons]
      rw [show List.enumFrom n ((c, e) :: ct.zip et) =
        (n, (c, e)) :: List.enumFrom (n + 1) (ct.zip et) from rfl]
      rw [List.map_cons, List.map_cons]
      rw [ih et (n + 1) (by simpa using hle)]

theorem upload_created_all_stores_all
    (env : Env) (store : Store) (text filename : String)
    (email jurisdiction contract_type : Option String)
    (ha : env.indexAvailable = true)
    (hembed : ∀ ts embs, env.embed ts = .ok embs → embs.length = ts.length)
    (hres : dictGet (upload_contract env store text filename email jurisdiction contract_type).1
        "chunks_created" =
      some (.int ((uploadChunks env text filename).length))) :
    ∀ h ∈ (uploadChunks env text filename).map (fun c => c.chunk_hash),
      ((upload_contract env store text filename email jurisdiction contract_type).2.any
        (fun r => r.id == h)) = true := by
  intro h hmem
  by_cases hnew : (uploadNewChunks env store text filename).isEmpty = true
  · -- all chunks hash-skipped: the early return reports 0 created, so the
    -- document had no chunks at all and the goal is vacuous
    unfold upload_contract at hres
    simp only [ha, Bool.not_true, Bool.false_eq_true, if_false, hnew, if_true] at hres
    simp [alreadyExistsDict, dictGet] at hres
    have hzero : (uploadChunks env text filename).length = 0 := by omega
    rw [List.length_eq_zero.mp hzero] at hmem
    simp at hmem
  · simp only [Bool.not_eq_true] at hnew
    cases hemb : env.embed ((uploadNewChunks env store text filename).map (fun c => c.text)) with
    | error e =>
      unfold upload_contract get_embeddings at hres
      simp [ha, hnew, hemb, uploadErrorDict, dictGet] at hres
    | ok embs =>
      by_cases hfin : (uploadFinalChunks env store text filename embs).isEmpty = true
      · -- all embedded chunks similarity-skipped: again 0 created forces an
        -- empty document, contradicting a nonempty new_chunks list
        unfold upload_contract get_embeddings at hres
        simp [ha, hnew, hemb, hfin, allDupDict, dictGet] at hres
        have hzero : uploadChunks env text filename = [] :=
          List.length_eq_zero.mp (by omega)
        have : uploadNewChunks env store text filename = [] := by
          unfold uploadNewChunks
          rw [hzero]
          rfl
        rw [this] at hnew
        simp at hnew
      · simp only [Bool.not_eq_true] at hfin
        unfold upload_contract get_embeddings at hres ⊢
        simp only [ha, Bool.not_true, Bool.false_eq_true, if_false, hnew, hemb, hfin] at hres ⊢
        simp only [uploadSuccessDict, dictGet] at hres
        simp only [if_neg (by decide : ¬ ("status" == "chunks_created") = true),
          if_neg (by decide : ¬ ("filename" == "chunks_created") = true),
          if_neg (by decide : ¬ ("doc_id" == "chunks_created") = true),
          if_pos (by decide : ("chunks_created" == "chunks_created") = true)] at hres
        have hflen : (uploadFinalChunks env store text filename embs).length =
            (uploadChunks env text filename).length := by
          have h1 := Option.some.inj hres
          rw [Value.int.injEq] at h1
          exact_mod_cast h1
        -- chain of length inequalities forcing every filter to keep everything
        have hfc : (uploadFinalChunks env store text filename embs).length =
            (((uploadNewChunks env store text filename).enum.filter
              (fun p => !(uploadDupIdx env store embs).contains p.1)).length) := by
          unfold uploadFinalChunks
          rw [List.length_map]
        have hnewle : (uploadNewChunks env store text filename).length ≤
            (uploadChunks env text filename).length := by
          unfold uploadNewChunks
          exact List.length_filter_le ..
        have hfle : (((uploadNewChunks env store text filename).enum.filter
              (fun p => !(uploadDupIdx env store embs).contains p.1)).length) ≤
            (uploadNewChunks env store text filename).length := by
          calc (((uploadNewChunks env store text filename).enum.filter
              (fun p => !(uploadDupIdx env store embs).contains p.1)).length)
              ≤ (uploadNewChunks env store text filename).enum.length :=
                List.length_filter_le ..
            _ = (uploadNewChunks env store text filename).length := List.enum_length
        have hnewlen : (uploadNewChunks env store text filename).length =
            (uploadChunks env text filename).length := by omega
        have henumlen : (((uploadNewChunks env store text filename).enum.filter
              (fun p => !(uploadDupIdx env store embs).contains p.1)).length) =
            (uploadNewChunks env store text filename).enum.length := by
          rw [List.enum_length]
          omega
        have hnew_eq : uploadNewChunks env store text filename =
            uploadChunks env text filename := by
          unfold uploadNewChunks at hnewlen ⊢
          exact filter_length_eq_self _ _ hnewlen
        have henum_eq : (uploadNewChunks env store text filename).enum.filter
              (fun p => !(uploadDupIdx env store embs).contains p.1) =
            (uploadNewChunks env store text filename).enum :=
          filter_length_eq_self _ _ henumlen
        have hfinal_eq : uploadFinalChunks env store text filename embs =
            uploadChunks env text filename := by
          unfold uploadFinalChunks
          rw [henum_eq, List.enum_map_snd, hnew_eq]
        have hembs_len : embs.length = (uploadNewChunks env store text filename).length := by
          rw [hembed _ _ hemb, List.length_map]
        have hq_all : ∀ p ∈ (uploadNewChunks env store text filename).enum,
            (!(uploadDupIdx env store embs).contains p.1) = true :=
          List.filter_eq_self.mp henum_eq
        have henum_eq2 : embs.enum.filter
              (fun p => !(uploadDupIdx env store embs).contains p.1) = embs.enum := by
          refine List.filter_eq_self.mpr ?_
          intro p hp
          have hplt : p.1 < (uploadNewChunks env store text filename).length := by
            have := enum_fst_lt embs p hp
            omega
          exact hq_all ((p.1, (uploadNewChunks env store text filename)[p.1]))
            (enum_mem_of_lt _ _ hplt)
        have hfe_eq : uploadFinalEmbeddings env store text filename embs = embs := by
          unfold uploadFinalEmbeddings
          rw [henum_eq2, List.enum_map_snd]
        rw [upsertBatches_eq, upsert_any_id]
        have hlenzip : (uploadChunks env text filename).length ≤ embs.length := by omega
        have hvec_ids : (((uploadFinalChunks env store text filename embs).zip
              (uploadFinalEmbeddings env store text filename embs)).enum.map
              (fun p => VectorRecord.mk p.2.1.chunk_hash p.2.2
                (vecMetadata (generate_doc_id filename env.upload_time) filename email
                  jurisdiction contract_type env.upload_time p.1 p.2.1))).map
              (fun r => r.id) =
            (uploadChunks env text filename).map (fun c => c.chunk_hash) := by
          rw [hfinal_eq, hfe_eq]
          rw [List.map_map]
          exact zip_enumFrom_map_hash (fun c => c.chunk_hash)
            (uploadChunks env text filename) embs 0 hlenzip
        obtain ⟨v, hvmem, hvid⟩ := List.mem_map.mp (hvec_ids ▸ hmem)
        -- the stored vector with id h makes the post-upsert membership true
        have : (((uploadFinalChunks env store text filename embs).zip
              (uploadFinalEmbeddings env store text filename embs)).enum.map
              (fun p => VectorRecord.mk p.2.1.chunk_hash p.2.2
                (vecMetadata (generate_doc_id filename env.upload_time) filename email
                  jurisdiction contract_type env.upload_time p.1 p.2.1))).any
            (fun r => r.id == h) = true :=
          List.any_eq_true.mpr ⟨v, hvmem, by simp [hvid]⟩
        rw [this]
        simp

/-- C3 (amended): a rerun of `upload_contract` with the same text and
filename, after a first call that created a vector for every chunk, reports
`chunks_created = 0` and the full chunk count under the key
`chunks_skipped` — the early-return dict carries no `chunks_skipped_hash`
key at all. -/
theorem upload_rerun_reports_chunks_skipped
    (env : Env) (store : Store) (text filename : String)
    (e1 j1 c1 e2 j2 c2 : Option String)
    (ha : env.indexAvailable = true)
    (hfetch : ∀ s h, env.fetchRaises s h = false)
    (hembed : ∀ ts embs, env.embed ts = .ok embs → embs.length = ts.length)
    (hres : dictGet (upload_contract env store text filename e1 j1 c1).1 "chunks_created" =
      some (.int ((uploadChunks env text filename).length))) :
    dictGet (upload_contract env (upload_contract env store text filename e1 j1 c1).2
        text filename e2 j2 c2).1 "chunks_created" = some (.int 0) ∧
    dictGet (upload_contract env (upload_contract env store text filename e1 j1 c1).2
        text filename e2 j2 c2).1 "chunks_skipped" =
      some (.int ((uploadChunks env text filename).length)) ∧
    dictGet (upload_contract env (upload_contract env store text filename e1 j1 c1).2
        text filename e2 j2 c2).1 "chunks_skipped_hash" = none := by
  have hstored := upload_created_all_stores_all env store text filename e1 j1 c1 ha hembed hres
  have hnew2 : uploadNewChunks env (upload_contract env store text filename e1 j1 c1).2
      text filename = [] := by
    unfold uploadNewChunks
    refine List.filter_eq_nil_iff.mpr ?_
    intro c hc
    have hhash : c.chunk_hash ∈ (uploadChunks env text filename).map (fun c => c.chunk_hash) :=
      List.mem_map.mpr ⟨c, hc, rfl⟩
    have hany := hstored c.chunk_hash hhash
    have hfetched : uploadFetchFn env (upload_contract env store text filename e1 j1 c1).2
        c.chunk_hash = .ok true := by
      unfold uploadFetchFn
      rw [hfetch]
      simp only [Bool.false_eq_true, if_false]
      rw [hany]
    have hfind : c.chunk_hash ∈ uploadExisting env
        (upload_contract env store text filename e1 j1 c1).2 text filename := by
      unfold uploadExisting check_existing_chunks
      rw [checkLoop_eq_filter]
      refine List.mem_filter.mpr ⟨hhash, ?_⟩
      rw [hfetched]
    have hcont : (uploadExisting env (upload_contract env store text filename e1 j1 c1).2
        text filename).contains c.chunk_hash = true := by
      simpa [List.contains] using hfind
    rw [hcont]
    simp
  have hnew2e : (uploadNewChunks env (upload_contract env store text filename e1 j1 c1).2
      text filename).isEmpty = true := by
    rw [hnew2]
    rfl
  refine ⟨?_, ?_, ?_⟩ <;>
    · generalize hst : (upload_contract env store text filename e1 j1 c1).2 = store1 at hnew2e ⊢
      unfold upload_contract
      simp only [ha, Bool.not_true, Bool.false_eq_true, if_false, hnew2e, if_true]
      simp [alreadyExistsDict, dictGet]

/-- Concrete environment for the rerun scenario: a one-token tokenizer, a
length-respecting embedding API, an index that never raises and returns no
similar neighbours. -/
def envC3 : Env :=
  { tok := ⟨fun _ => [5], fun _ => "txt"⟩
    indexAvailable := true
    embed := fun ts => .ok (ts.map (fun _ => [1]))
    queryFn := fun _ _ _ => .ok []
    fetchRaises := fun _ _ => false
    upload_time := "t0"
    llmMain := .fail "x"
    llmFallback := .fail "x" }

/-- Counterexample to C3 as stated: after a first upload that stores the
document's single chunk (`chunks_created = 1`), the second upload of the
same text and filename reports `chunks_created = 0` but carries no
`chunks_skipped_hash` key (the count is under `chunks_skipped` instead). -/
theorem upload_rerun_missing_hash_field_cex :
    dictGet (upload_contract envC3 [] "T" "f" none none none).1 "chunks_created" =
      some (.int 1) ∧
    dictGet (upload_contract envC3 (upload_contract envC3 [] "T" "f" none none none).2
        "T" "f" none none none).1 "chunks_created" = some (.int 0) ∧
    dictGet (upload_contract envC3 (upload_contract envC3 [] "T" "f" none none none).2
        "T" "f" none none none).1 "chunks_skipped_hash" = none ∧
    dictGet (upload_contract envC3 (upload_contract envC3 [] "T" "f" none none none).2
        "T" "f" none none none).1 "chunks_skipped" = some (.int 1) :=
  ⟨rfl, rfl, rfl, rfl⟩

/-- Witness for the amended rerun theorem at the concrete environment. -/
theorem upload_rerun_reports_chunks_skipped_witness :
    dictGet (upload_contract envC3 (upload_contract envC3 [] "T" "f" none none none).2
        "T" "f" none none none).1 "chunks_skipped" =
      some (.int ((uploadChunks envC3 "T" "f").length)) :=
  (upload_rerun_reports_chunks_skipped envC3 [] "T" "f" none none none none none none
    rfl (fun _ _ => rfl)
    (by intro ts embs h; cases h; simp) rfl).2.1

/-! The ask path: conflation of query errors with no-matches, the fallback
shape, and the risk-score bound. -/

/-- Environment whose vector store raises from `index.query` (the index
handle itself is live). -/
def envQErr : Env :=
  { tok := ⟨fun _ => [5], fun _ => "txt"⟩
    indexAvailable := true
    embed := fun ts => .ok (ts.map (fun _ => [1]))
    queryFn := fun _ _ _ => .error "store unreachable"
    fetchRaises := fun _ _ => false
    upload_time := "t0"
    llmMain := .fail "x"
    llmFallback := .fail "boom" }

/-- Environment identical to `envQErr` except that `index.query` succeeds
with zero matches (an empty index). -/
def envQEmpty : Env :=
  { tok := ⟨fun _ => [5], fun _ => "txt"⟩
    indexAvailable := true
    embed := fun ts => .ok (ts.map (fun _ => [1]))
    queryFn := fun _ _ _ => .ok []
    fetchRaises := fun _ _ => false
    upload_time := "t0"
    llmMain := .fail "x"
    llmFallback := .fail "boom" }

/-- C4 (code bug): for an in-domain query, `ask_contract` returns the very
same global-fallback response whether `index.query` raised or legitimately
found no matches, and that response carries no `error` field — the
store-unavailable condition is silently conflated with "no results". -/
theorem ask_contract_conflates_query_error_with_no_results :
    ask_contract envQErr [] "Is this contract risky?" none none =
      ask_contract envQEmpty [] "Is this contract risky?" none none ∧
    dictGet (ask_contract envQErr [] "Is this contract risky?" none none) "error" = none ∧
    dictGet (ask_contract envQErr [] "Is this contract risky?" none none) "storage_type" =
      some (.str "fallback_error") :=
  ⟨rfl, rfl, rfl⟩

theorem pyClampRisk_ok_riskOk (x : Option Value) (v : Value)
    (h : pyClampRisk x = .ok v) : riskOk v = true := by
  match x with
  | none => cases h; rfl
  | some (.int n) =>
    cases h
    simp only [riskOk, decide_eq_true_eq]
    omega
  | some (.rat q) =>
    cases h
    simp only [riskOk, decide_eq_true_eq]
    constructor
    · exact le_min (by norm_num) (le_max_left 0 q)
    · exact min_le_left 10 (max 0 q)
  | some (.bool b) => cases b <;> cases h <;> rfl
  | some .null => cases h
  | some (.str s) => cases h
  | some (.list l) => cases h
  | some (.dict d) => cases h

theorem format_ok_risk (data : List (String × Value)) (chunks : List RetrievedChunk)
    (d : List (String × Value))
    (h : format_analysis_response_with_citations data chunks = .ok d) :
    ∃ v, dictGet d "overall_risk_score" = some v ∧ riskOk v = true := by
  unfold format_analysis_response_with_citations at h
  dsimp only at h
  cases hcs : citeSummary (dictGet data "summary") (chunks.filterMap fun c =>
      if isTruthy c.doc_id && isTruthy c.chunk_id then
        some ("[Source: " ++ pyStr c.doc_id ++ ", " ++ pyStr c.chunk_id ++ "]")
      else none) with
  | error e =>
    rw [hcs] at h
    simp at h
  | ok sv =>
    rw [hcs] at h
    cases hcr : pyClampRisk (dictGet data "overall_risk_score") with
    | error e =>
      rw [hcr] at h
      simp at h
    | ok rv =>
      rw [hcr] at h
      simp only [Except.ok.injEq] at h
      subst h
      exact ⟨rv, rfl, pyClampRisk_ok_riskOk _ _ hcr⟩

/-- C9: every dictionary `ask_contract` returns — filtered, unavailable,
fallback, cited success, and both error handlers — carries an
`overall_risk_score` whose numeric value lies in [0, 10], whatever the
language model produced. -/
theorem ask_contract_risk_score_bounded (env : Env) (store : Store) (query : String)
    (j ct : Option String) :
    ∃ v, dictGet (ask_contract env store query j ct) "overall_risk_score" = some v ∧
      riskOk v = true := by
  unfold ask_contract
  split
  · exact ⟨.int 0, rfl, rfl⟩
  · split
    · exact ⟨.int 0, rfl, rfl⟩
    · dsimp only
      split
      · unfold get_global_best_practices_response
        split
        · split
          · exact ⟨.int 0, rfl, rfl⟩
          · rename_i riskV hclamp
            exact ⟨riskV, rfl, pyClampRisk_ok_riskOk _ _ hclamp⟩
        · exact ⟨.int 0, rfl, rfl⟩
        · exact ⟨.int 0, rfl, rfl⟩
      · split
        · exact ⟨.int 0, rfl, rfl⟩
        · exact ⟨.int 0, rfl, rfl⟩
        · split
          · rename_i d heq
            exact format_ok_risk _ _ d heq
          · exact ⟨.int 0, rfl, rfl⟩

/-- Environment with an empty index (queries succeed with zero matches) and
a fallback language model that returns a well-formed response. -/
def envC7 : Env :=
  { tok := ⟨fun _ => [5], fun _ => "txt"⟩
    indexAvailable := true
    embed := fun ts => .ok (ts.map (fun _ => [1]))
    queryFn := fun _ _ _ => .ok []
    fetchRaises := fun _ _ => false
    upload_time := "t0"
    llmMain := .fail "x"
    llmFallback := .ok
      [("risky_clauses", .list []),
       ("missing_protections", .list []),
       ("overall_risk_score", .int 0),
       ("summary", .str "No documents uploaded yet. In general, review liability clauses carefully."),
       ("notes", .list [])] }

/-- Counterexample to C7 as stated: against an empty index the fallback
result carries no `retrieved_chunk_count` key — the zero count sits under
the key `retrieved_chunks`. -/
theorem ask_fallback_missing_chunk_count_field_cex :
    dictGet (ask_contract envC7 [] "What are typical contract terms?" none none)
      "retrieved_chunk_count" = none ∧
    dictGet (ask_contract envC7 [] "What are typical contract terms?" none none)
      "retrieved_chunks" = some (.int 0) ∧
    dictGet (ask_contract envC7 [] "What are typical contract terms?" none none)
      "storage_type" = some (.str "global_fallback") :=
  ⟨rfl, rfl, rfl⟩

/-- C7 (amended): for an unfiltered query against a live index whose
retrieval yields no chunks, `ask_contract` returns a result whose
`retrieved_chunks` field is 0 and whose `storage_type` marks it as a
fallback (`"global_fallback"`, or `"fallback_error"` when the fallback
generation itself fails); the no-documents wording of the summary is
requested from the language model, not enforced by the code. -/
theorem ask_fallback_marks_zero_retrieved
    (env : Env) (store : Store) (query : String) (j ct : Option String)
    (hfil : queryFiltered query = false)
    (ha : env.indexAvailable = true)
    (hempty : retrieve_relevant_chunks env store query 7 = []) :
    dictGet (ask_contract env store query j ct) "retrieved_chunks" = some (.int 0) ∧
    (dictGet (ask_contract env store query j ct) "storage_type" =
        some (.str "global_fallback") ∨
      dictGet (ask_contract env store query j ct) "storage_type" =
        some (.str "fallback_error")) := by
  unfold ask_contract
  simp only [hfil, Bool.false_eq_true, if_false, ha, Bool.not_true]
  rw [hempty]
  simp only [List.isEmpty_nil, if_true]
  unfold get_global_best_practices_response
  split
  · split
    · exact ⟨rfl, Or.inr rfl⟩
    · exact ⟨rfl, Or.inl rfl⟩
  · exact ⟨rfl, Or.inr rfl⟩
  · exact ⟨rfl, Or.inr rfl⟩

/-- Witness for the amended fallback theorem at the concrete environment. -/
theorem ask_fallback_marks_zero_retrieved_witness :
    dictGet (ask_contract envC7 [] "What are typical contract terms?" none none)
      "retrieved_chunks" = some (.int 0) :=
  (ask_fallback_marks_zero_retrieved envC7 [] "What are typical contract terms?"
    none none rfl rfl rfl).1
